import Mathlib

/-!
Shallow embedding of the 93Cx6 EEPROM driver (`eeprom_93cx6.py`).

The driver bit-bangs four digital lines (CS, SK, DI, DO).  We embed each
operation as a pure function that returns the sequence of wire events it
performs (`List Ev`).  The DO input line is modelled as a stream
`dos : Nat → Bool` of the successive samples the driver would read, and the
unbounded ready-wait loop is modelled with explicit fuel: a `none` result
means the fuel ran out, i.e. the Python loop has not yet terminated after
that many polls.  Machine integers are `Nat` (the driver only ever shifts
nonnegative command words); address arguments are `Int` because Python
callers may pass negative addresses.
-/

namespace EEPROM93

/-- Module-level delay constants (microseconds) from the source. -/
def DELAY_CS : Nat := 0

def DELAY_READ : Nat := 1

def DELAY_WRITE : Nat := 1

def DELAY_WAIT : Nat := 1

def EEPROM_MODE_8BIT : Nat := 1

def EEPROM_MODE_16BIT : Nat := 2

namespace OP

def CONTROL : Nat := 0x00

def WRITE : Nat := 0x01

def READ : Nat := 0x02

def ERASE : Nat := 0x03

end OP

namespace CC

def EW_DISABLE : Nat := 0x00

def WRITE_ALL : Nat := 0x01

def ERASE_ALL : Nat := 0x02

def EW_ENABLE : Nat := 0x03

end CC

/-- One observable wire event: driving CS/SK/DI, sleeping, or sampling DO. -/
inductive Ev where
  | cs (b : Bool)
  | sk (b : Bool)
  | di (b : Bool)
  | usleep (n : Nat)
  | readDo (b : Bool)
deriving DecidableEq

/-- The only runtime error the driver raises (`ValueError` from
`validate_addr`; the spec calls the address case `AddressOutOfRange`). -/
inductive Err where
  | valueError
deriving DecidableEq

/-- Device state: model, organization, resolved geometry (`bytes` =
word count, `addr` = address bit-width, `mask` = address mask) and the
erase/write enable latch `_ew`. -/
structure Dev where
  model : Nat
  org : Nat
  bytes : Nat
  addr : Nat
  mask : Nat
  ew : Bool
deriving DecidableEq

/-- Python's bitwise AND `a & m` of an `int` with a nonnegative mask,
two's-complement on negatives: `(-(n+1)) & m = m AND (NOT n)`. -/
def pyAnd : Int → Nat → Nat
  | Int.ofNat n, m => n &&& m
  | Int.negSucc n, m => Nat.ldiff m n

namespace Device

/-- `Device.get_bytes_by_model`: base word count 128 (8-bit) / 64 (16-bit),
multiplied by the model-tier factor.  (For an org outside the two modes the
Python code would leave `byte` unbound; the constructor rejects such orgs,
and we return 0 there.) -/
def get_bytes_by_model (org model : Nat) : Nat :=
  let byte :=
    if org = EEPROM_MODE_8BIT then 128
    else if org = EEPROM_MODE_16BIT then 64
    else 0
  if model = 56 then byte * 2
  else if model = 66 then byte * 4
  else if model = 76 then byte * 8
  else if model = 86 then byte * 16
  else byte

/-- `Device.get_addr_by_model`: base width 7 (8-bit) / 6 (16-bit), plus 2
for models 56/66, plus 4 for models 76/86 (two independent `if`s in the
source, on disjoint model sets). -/
def get_addr_by_model (org model : Nat) : Nat :=
  let addr :=
    if org = EEPROM_MODE_8BIT then 7
    else if org = EEPROM_MODE_16BIT then 6
    else 0
  let addr := if model = 56 ∨ model = 66 then addr + 2 else addr
  if model = 76 ∨ model = 86 then addr + 4 else addr

/-- `Device.get_mask_by_model`: base mask 0x7F (8-bit) / 0x3F (16-bit),
then `(mask << 2) + 0x03` for models 56/66 and `(mask << 4) + 0x0F` for
models 76/86 (again two independent `if`s on disjoint model sets). -/
def get_mask_by_model (org model : Nat) : Nat :=
  let mask :=
    if org = EEPROM_MODE_8BIT then 0x7F
    else if org = EEPROM_MODE_16BIT then 0x3F
    else 0
  let mask := if model = 56 ∨ model = 66 then (mask <<< 2) + 0x03 else mask
  if model = 76 ∨ model = 86 then (mask <<< 4) + 0x0F else mask

/-- `Device.validate_addr`: raises `ValueError` when
`addr < 0 or addr > self.bytes - 1`. -/
def validate_addr (d : Dev) (addr : Int) : Except Err Unit :=
  if addr < 0 ∨ addr > (d.bytes : Int) - 1 then Except.error Err.valueError
  else Except.ok ()

/-- `Device.send_bits(value, length)`: for `i` from `length-1` down to `0`,
drive DI to bit `i` of `value`, sleep, pulse SK high then low with sleeps. -/
def send_bits (value : Nat) : Nat → List Ev
  | 0 => []
  | n + 1 =>
    Ev.di (value.testBit n) :: Ev.usleep DELAY_WRITE :: Ev.sk true ::
      Ev.usleep DELAY_WRITE :: Ev.sk false :: Ev.usleep DELAY_WRITE ::
        send_bits value n

/-- The shift-in loop shared by `read` and `read_sequential`: for `i` from
`num_bits` down to `1`, pulse SK high, sleep, sample DO, pulse SK low,
sleep, OR the sampled bit into position `i-1`.  `start` is the index of the
next DO sample in the stream. -/
def shift_in (dos : Nat → Bool) : Nat → Nat → Nat × List Ev
  | _, 0 => (0, [])
  | start, n + 1 =>
    let b := dos start
    let rest := shift_in dos (start + 1) n
    (((if b then 1 else 0) <<< n) ||| rest.1,
      Ev.sk true :: Ev.usleep DELAY_READ :: Ev.readDo b :: Ev.sk false ::
        Ev.usleep DELAY_READ :: rest.2)

/-- The body of `wait_ready`'s `while self.do.value() != 1` loop, with
explicit fuel (`none` = the loop has not terminated within `fuel` polls;
the Python loop is unbounded).  `k` indexes the DO sample stream. -/
def poll_loop (dos : Nat → Bool) : Nat → Nat → Option (List Ev)
  | 0, _ => none
  | fuel + 1, k =>
    if dos k then some [Ev.readDo true]
    else (poll_loop dos fuel (k + 1)).map fun evs =>
      Ev.readDo false :: Ev.usleep DELAY_WAIT :: evs

/-- `Device.wait_ready`: re-assert CS, poll DO until it reads high, then
deassert CS. -/
def wait_ready (dos : Nat → Bool) (fuel start : Nat) : Option (List Ev) :=
  (poll_loop dos fuel start).map fun evs => Ev.cs true :: (evs ++ [Ev.cs false])

/-- `Device.ew_enabled`: pure read of the latch. -/
def ew_enabled (d : Dev) : Bool := d.ew

/-- Word width selected by the organization in `read`/`read_sequential`/
`write`/`write_all` (Python would leave `num_bits` unbound for other orgs;
the constructor rejects those, and we return 0 there). -/
def num_bits (d : Dev) : Nat :=
  if d.org = EEPROM_MODE_16BIT then 16
  else if d.org = EEPROM_MODE_8BIT then 8
  else 0

/-- `Device.ew_enable` (EWEN): start bit, control frame with sub-command
`CC.EW_ENABLE`, latch set true. -/
def ew_enable (d : Dev) : Dev × List Ev :=
  ({ d with ew := true },
    Ev.cs true :: Ev.usleep DELAY_CS ::
      (send_bits 1 1 ++
        send_bits (OP.CONTROL <<< d.addr ||| CC.EW_ENABLE <<< (d.addr - 2))
          (d.addr + 2) ++
        [Ev.cs false]))

/-- `Device.ew_disable` (EWDS): the source shifts out the *same* control
frame as `ew_enable` — sub-command `CC.EW_ENABLE`, not `CC.EW_DISABLE`
(line 167 of the source) — and then sets the latch false. -/
def ew_disable (d : Dev) : Dev × List Ev :=
  ({ d with ew := false },
    Ev.cs true :: Ev.usleep DELAY_CS ::
      (send_bits 1 1 ++
        send_bits (OP.CONTROL <<< d.addr ||| CC.EW_ENABLE <<< (d.addr - 2))
          (d.addr + 2) ++
        [Ev.cs false]))

/-- `Device.erase_all`: no-op when the latch is off, else start bit,
control frame with `CC.ERASE_ALL`, CS off, then `wait_ready`. -/
def erase_all (d : Dev) (dos : Nat → Bool) (fuel : Nat) : Option (List Ev) :=
  if !ew_enabled d then some []
  else
    (wait_ready dos fuel 0).map fun w =>
      Ev.cs true :: Ev.usleep DELAY_CS ::
        (send_bits 1 1 ++
          send_bits (OP.CONTROL <<< d.addr ||| CC.ERASE_ALL <<< (d.addr - 2))
            (d.addr + 2) ++
          [Ev.cs false] ++ w)

/-- `Device.erase(addr)`: no-op when the latch is off; otherwise it frames
`OP.ERASE` with `addr & mask` and runs `wait_ready`.  Note the source never
calls `validate_addr` here. -/
def erase (d : Dev) (dos : Nat → Bool) (fuel : Nat) (addr : Int) :
    Option (List Ev) :=
  if !ew_enabled d then some []
  else
    (wait_ready dos fuel 0).map fun w =>
      Ev.cs true :: Ev.usleep DELAY_CS ::
        (send_bits 1 1 ++
          send_bits (OP.ERASE <<< d.addr ||| pyAnd addr d.mask) (d.addr + 2) ++
          [Ev.cs false] ++ w)

/-- `Device.write_all(value)`: no-op when the latch is off, else control
frame with `CC.WRITE_ALL`, then the payload (`0xFFFF & value` in 16 bits or
`0xFF & value` in 8 bits), CS off, `wait_ready`. -/
def write_all (d : Dev) (dos : Nat → Bool) (fuel : Nat) (value : Nat) :
    Option (List Ev) :=
  if !ew_enabled d then some []
  else
    (wait_ready dos fuel 0).map fun w =>
      Ev.cs true :: Ev.usleep DELAY_CS ::
        (send_bits 1 1 ++
          send_bits (OP.CONTROL <<< d.addr ||| CC.WRITE_ALL <<< (d.addr - 2))
            (d.addr + 2) ++
          (if d.org = EEPROM_MODE_16BIT then send_bits (0xFFFF &&& value) 16
           else if d.org = EEPROM_MODE_8BIT then send_bits (0xFF &&& value) 8
           else []) ++
          [Ev.cs false] ++ w)

/-- `Device.write(addr, value)`: latch guard first, then `validate_addr`,
then the addressed `OP.WRITE` frame, the payload — masked with `0xFFFF` in
*both* organizations (source line 230) but sent as 16 or 8 bits — CS off,
`wait_ready`. -/
def write (d : Dev) (dos : Nat → Bool) (fuel : Nat) (addr : Int)
    (value : Nat) : Option (Except Err (List Ev)) :=
  if !ew_enabled d then some (Except.ok [])
  else
    match validate_addr d addr with
    | Except.error e => some (Except.error e)
    | Except.ok _ =>
      (wait_ready dos fuel 0).map fun w =>
        Except.ok
          (Ev.cs true :: Ev.usleep DELAY_CS ::
            (send_bits 1 1 ++
              send_bits (OP.WRITE <<< d.addr ||| pyAnd addr d.mask)
                (d.addr + 2) ++
              (if d.org = EEPROM_MODE_16BIT then send_bits (0xFFFF &&& value) 16
               else if d.org = EEPROM_MODE_8BIT then send_bits (0xFFFF &&& value) 8
               else []) ++
              [Ev.cs false] ++ w))

/-- `Device.read(addr)`: `validate_addr`, addressed `OP.READ` frame, then
shift in one word of `num_bits` bits; no latch guard, no `wait_ready`. -/
def read (d : Dev) (dos : Nat → Bool) (addr : Int) :
    Except Err (Nat × List Ev) :=
  match validate_addr d addr with
  | Except.error e => Except.error e
  | Except.ok _ =>
    let r := shift_in dos 0 (num_bits d)
    Except.ok (r.1,
      Ev.cs true :: Ev.usleep DELAY_CS ::
        (send_bits 1 1 ++
          send_bits (OP.READ <<< d.addr ||| pyAnd addr d.mask) (d.addr + 2) ++
          r.2 ++ [Ev.cs false]))

/-- The `for count in range(length)` loop of `read_sequential`: at each
iteration it breaks when `addr + count > self.bytes`, else shifts in one
word.  `rem` is the number of iterations left, `count` the Python loop
variable, `start` the DO sample index. -/
def seq_loop (d : Dev) (dos : Nat → Bool) (addr : Int) :
    Nat → Nat → Nat → List Nat × List Ev
  | _, _, 0 => ([], [])
  | start, count, rem + 1 =>
    if addr + (count : Int) > (d.bytes : Int) then ([], [])
    else
      let r := shift_in dos start (num_bits d)
      let rest := seq_loop d dos addr (start + num_bits d) (count + 1) rem
      (r.1 :: rest.1, r.2 ++ rest.2)

/-- `Device.read_sequential(addr, length)`: `validate_addr`, one addressed
`OP.READ` frame, then up to `length` consecutive word shift-ins with the
early-break check `addr + count > self.bytes`. -/
def read_sequential (d : Dev) (dos : Nat → Bool) (addr : Int) (length : Nat) :
    Except Err (List Nat × List Ev) :=
  match validate_addr d addr with
  | Except.error e => Except.error e
  | Except.ok _ =>
    let r := seq_loop d dos addr 0 0 length
    Except.ok (r.1,
      Ev.cs true :: Ev.usleep DELAY_CS ::
        (send_bits 1 1 ++
          send_bits (OP.READ <<< d.addr ||| pyAnd addr d.mask) (d.addr + 2) ++
          r.2 ++ [Ev.cs false]))

end Device

/-- A device as `Device.__init__` builds it for a valid model/org, with the
latch in a chosen state (`__init__` starts it `False`; `ew_enable` flips
it). -/
def mkDev (model org : Nat) (ew : Bool) : Dev :=
  { model := model
    org := org
    bytes := Device.get_bytes_by_model org model
    addr := Device.get_addr_by_model org model
    mask := Device.get_mask_by_model org model
    ew := ew }

/-- The DI levels appearing in a trace, in order: the data the chip sees. -/
def diBits (tr : List Ev) : List Bool :=
  tr.filterMap fun e =>
    match e with
    | Ev.di b => some b
    | _ => none

/-- Claim C1: for every organization in the two modes and every model in
46/56/66/76/86, the resolved geometry triple (word count, address width,
address mask) matches the documented table — all 10 combinations. -/
theorem C1_geometry_table :
    Device.get_bytes_by_model EEPROM_MODE_8BIT 46 = 128 ∧
    Device.get_addr_by_model EEPROM_MODE_8BIT 46 = 7 ∧
    Device.get_mask_by_model EEPROM_MODE_8BIT 46 = 0x7F ∧
    Device.get_bytes_by_model EEPROM_MODE_8BIT 56 = 256 ∧
    Device.get_addr_by_model EEPROM_MODE_8BIT 56 = 9 ∧
    Device.get_mask_by_model EEPROM_MODE_8BIT 56 = 0x1FF ∧
    Device.get_bytes_by_model EEPROM_MODE_8BIT 66 = 512 ∧
    Device.get_addr_by_model EEPROM_MODE_8BIT 66 = 9 ∧
    Device.get_mask_by_model EEPROM_MODE_8BIT 66 = 0x1FF ∧
    Device.get_bytes_by_model EEPROM_MODE_8BIT 76 = 1024 ∧
    Device.get_addr_by_model EEPROM_MODE_8BIT 76 = 11 ∧
    Device.get_mask_by_model EEPROM_MODE_8BIT 76 = 0x7FF ∧
    Device.get_bytes_by_model EEPROM_MODE_8BIT 86 = 2048 ∧
    Device.get_addr_by_model EEPROM_MODE_8BIT 86 = 11 ∧
    Device.get_mask_by_model EEPROM_MODE_8BIT 86 = 0x7FF ∧
    Device.get_bytes_by_model EEPROM_MODE_16BIT 46 = 64 ∧
    Device.get_addr_by_model EEPROM_MODE_16BIT 46 = 6 ∧
    Device.get_mask_by_model EEPROM_MODE_16BIT 46 = 0x3F ∧
    Device.get_bytes_by_model EEPROM_MODE_16BIT 56 = 128 ∧
    Device.get_addr_by_model EEPROM_MODE_16BIT 56 = 8 ∧
    Device.get_mask_by_model EEPROM_MODE_16BIT 56 = 0xFF ∧
    Device.get_bytes_by_model EEPROM_MODE_16BIT 66 = 256 ∧
    Device.get_addr_by_model EEPROM_MODE_16BIT 66 = 8 ∧
    Device.get_mask_by_model EEPROM_MODE_16BIT 66 = 0xFF ∧
    Device.get_bytes_by_model EEPROM_MODE_16BIT 76 = 512 ∧
    Device.get_addr_by_model EEPROM_MODE_16BIT 76 = 10 ∧
    Device.get_mask_by_model EEPROM_MODE_16BIT 76 = 0x3FF ∧
    Device.get_bytes_by_model EEPROM_MODE_16BIT 86 = 1024 ∧
    Device.get_addr_by_model EEPROM_MODE_16BIT 86 = 10 ∧
    Device.get_mask_by_model EEPROM_MODE_16BIT 86 = 0x3FF := by
  decide

/-- Claim C2: on the concrete model-46 / 16-bit device, `ew_disable`
shifts out the control frame with sub-command `CC.EW_ENABLE` (frame value
`0b00110000`), not the disable-write sub-command `0b00` (frame value 0)
required by its own docstring (EWDS) and by the spec; it does set the
latch false.  The two frames put different bit sequences on the wire. -/
theorem C2_ew_disable_sends_enable_frame :
    (Device.ew_disable (mkDev 46 EEPROM_MODE_16BIT true)).2 =
      Ev.cs true :: Ev.usleep DELAY_CS ::
        (Device.send_bits 1 1 ++
          Device.send_bits (OP.CONTROL <<< 6 ||| CC.EW_ENABLE <<< 4) 8 ++
          [Ev.cs false]) ∧
    (Device.ew_disable (mkDev 46 EEPROM_MODE_16BIT true)).1.ew = false ∧
    Device.send_bits (OP.CONTROL <<< 6 ||| CC.EW_ENABLE <<< 4) 8 ≠
      Device.send_bits (OP.CONTROL <<< 6 ||| CC.EW_DISABLE <<< 4) 8 := by
  decide

/-- Claim C3 counterexample: on the model-46 / 16-bit device with the
latch enabled, `erase` at the out-of-range address 64 (word count is 64)
raises nothing and performs a full wire transaction, contradicting the
claim that erase fails with `AddressOutOfRange` before any line is
driven. -/
theorem C3_erase_skips_validation :
    (Device.erase (mkDev 46 EEPROM_MODE_16BIT true) (fun _ => true) 1
        64).isSome = true ∧
    (Device.erase (mkDev 46 EEPROM_MODE_16BIT true) (fun _ => true) 1
        64).getD [] ≠ [] := by
  decide

/-- Claim C3 (amended): for an out-of-range address, `read` (always) and
`write` (with the latch enabled) fail with the address error before any
wire event; `erase` never validates the address — with the latch enabled
it masks the address and performs a full (nonempty) wire transaction
without raising. -/
theorem C3_amended_out_of_range (d : Dev) (dos : Nat → Bool) (fuel : Nat)
    (a : Int) (v : Nat) (hout : a < 0 ∨ (d.bytes : Int) ≤ a) :
    Device.read d dos a = Except.error Err.valueError ∧
    (d.ew = true →
      Device.write d dos fuel a v = some (Except.error Err.valueError)) ∧
    (∀ tr, Device.erase d dos fuel a = some tr → d.ew = true → tr ≠ []) := by
  have hcond : a < 0 ∨ a > (d.bytes : Int) - 1 := by
    rcases hout with h | h
    · exact Or.inl h
    · right
      omega
  have hv : Device.validate_addr d a = Except.error Err.valueError := by
    unfold Device.validate_addr
    rw [if_pos hcond]
  refine ⟨?_, ?_, ?_⟩
  · unfold Device.read
    rw [hv]
  · intro hew
    simp [Device.write, Device.ew_enabled, hew, hv]
  · intro tr h hew
    simp [Device.erase, Device.ew_enabled, hew, Device.wait_ready,
      Option.map_eq_some'] at h
    obtain ⟨p, hp, rfl⟩ := h
    simp

/-- Claim C3 witness for the amended theorem, at the model-46 / 16-bit
device (word count 64), address 64, with the latch enabled. -/
theorem C3_amended_out_of_range_witness :
    ((64 : Int) < 0 ∨ ((mkDev 46 EEPROM_MODE_16BIT true).bytes : Int) ≤ 64) ∧
    (Device.read (mkDev 46 EEPROM_MODE_16BIT true) (fun _ => true) 64 =
        Except.error Err.valueError ∧
      ((mkDev 46 EEPROM_MODE_16BIT true).ew = true →
        Device.write (mkDev 46 EEPROM_MODE_16BIT true) (fun _ => true) 1 64 5 =
          some (Except.error Err.valueError)) ∧
      (∀ tr,
        Device.erase (mkDev 46 EEPROM_MODE_16BIT true) (fun _ => true) 1 64 =
          some tr →
        (mkDev 46 EEPROM_MODE_16BIT true).ew = true → tr ≠ [])) :=
  ⟨by decide,
    C3_amended_out_of_range (mkDev 46 EEPROM_MODE_16BIT true) (fun _ => true)
      1 64 5 (by decide)⟩

/-- Claim C4: on the model-46 / 16-bit device (word count 64),
`read_sequential(63, 2)` returns 2 words — the loop's break condition
`addr + count > self.bytes` is off by one, so the word at address 64
(past the last address 63) is read — whereas the claim (and the
function's own docstring) require stopping at the end of memory, i.e.
`word_count - addr = 1` word. -/
theorem C4_read_sequential_overruns :
    (Device.read_sequential (mkDev 46 EEPROM_MODE_16BIT false)
          (fun _ => false) 63 2).toOption.map (fun r => r.1.length) =
      some 2 ∧
    (2 : Nat) ≠ 64 - 63 := by
  decide

/-- Geometry fact behind claim C5: for every supported combination the
mask is `2^k - 1` for a `k` with `word_count ≤ 2^k`. -/
theorem mask_is_pow_sub_one (org model : Nat)
    (horg : org = EEPROM_MODE_8BIT ∨ org = EEPROM_MODE_16BIT)
    (hmodel : model = 46 ∨ model = 56 ∨ model = 66 ∨ model = 76 ∨ model = 86) :
    ∃ k, Device.get_mask_by_model org model = 2 ^ k - 1 ∧
      Device.get_bytes_by_model org model ≤ 2 ^ k := by
  rcases horg with h | h <;> subst h <;>
    rcases hmodel with h | h | h | h | h <;> subst h
  · exact ⟨7, by decide, by decide⟩
  · exact ⟨9, by decide, by decide⟩
  · exact ⟨9, by decide, by decide⟩
  · exact ⟨11, by decide, by decide⟩
  · exact ⟨11, by decide, by decide⟩
  · exact ⟨6, by decide, by decide⟩
  · exact ⟨8, by decide, by decide⟩
  · exact ⟨8, by decide, by decide⟩
  · exact ⟨10, by decide, by decide⟩
  · exact ⟨10, by decide, by decide⟩

/-- Claim C5: for every supported (organization, model) pair and every
address below the word count, masking with the address mask leaves the
address unchanged — the mask never clips a legal address. -/
theorem C5_mask_never_clips (org model a : Nat)
    (horg : org = EEPROM_MODE_8BIT ∨ org = EEPROM_MODE_16BIT)
    (hmodel : model = 46 ∨ model = 56 ∨ model = 66 ∨ model = 76 ∨ model = 86)
    (ha : a < Device.get_bytes_by_model org model) :
    a &&& Device.get_mask_by_model org model = a := by
  obtain ⟨k, hm, hb⟩ := mask_is_pow_sub_one org model horg hmodel
  rw [hm]
  exact Nat.and_pow_two_sub_one_of_lt_two_pow (Nat.lt_of_lt_of_le ha hb)

/-- Claim C5 witness at organization 16-bit, model 46, address 63. -/
theorem C5_mask_never_clips_witness :
    63 < Device.get_bytes_by_model EEPROM_MODE_16BIT 46 ∧
    63 &&& Device.get_mask_by_model EEPROM_MODE_16BIT 46 = 63 :=
  ⟨by decide,
    C5_mask_never_clips EEPROM_MODE_16BIT 46 63 (Or.inr rfl) (Or.inl rfl)
      (by decide)⟩

/-- Claim C6: with the enable latch false, each of `erase`, `write`,
`erase_all` and `write_all` performs no wire activity (empty trace, no DO
poll) and returns normally without raising. -/
theorem C6_latch_off_silent_noop (d : Dev) (dos : Nat → Bool) (fuel : Nat)
    (a : Int) (v : Nat) (hew : d.ew = false) :
    Device.erase d dos fuel a = some [] ∧
    Device.write d dos fuel a v = some (Except.ok []) ∧
    Device.erase_all d dos fuel = some [] ∧
    Device.write_all d dos fuel v = some [] := by
  simp [Device.erase, Device.write, Device.erase_all, Device.write_all,
    Device.ew_enabled, hew]

/-- Claim C6 witness: concrete disabled device, zero fuel (no poll can
even happen), a negative address and an arbitrary value. -/
theorem C6_latch_off_silent_noop_witness :
    (mkDev 46 EEPROM_MODE_16BIT false).ew = false ∧
    (Device.erase (mkDev 46 EEPROM_MODE_16BIT false) (fun _ => true) 0 (-1) =
        some [] ∧
      Device.write (mkDev 46 EEPROM_MODE_16BIT false) (fun _ => true) 0 (-1)
          5 = some (Except.ok []) ∧
      Device.erase_all (mkDev 46 EEPROM_MODE_16BIT false) (fun _ => true) 0 =
        some [] ∧
      Device.write_all (mkDev 46 EEPROM_MODE_16BIT false) (fun _ => true) 0
          5 = some []) :=
  ⟨rfl,
    C6_latch_off_silent_noop (mkDev 46 EEPROM_MODE_16BIT false)
      (fun _ => true) 0 (-1) 5 rfl⟩

/-- Claim C10: with the latch disabled, `write` and `erase` return
normally for *every* address (in range or not) and can never surface the
address error: the latch guard is evaluated before address validation. -/
theorem C10_latch_guard_precedes_validation (d : Dev) (dos : Nat → Bool)
    (fuel : Nat) (a : Int) (v : Nat) (hew : d.ew = false) :
    Device.write d dos fuel a v = some (Except.ok []) ∧
    Device.erase d dos fuel a = some [] ∧
    ∀ e : Err, Device.write d dos fuel a v ≠ some (Except.error e) := by
  refine ⟨?_, ?_, ?_⟩
  · simp [Device.write, Device.ew_enabled, hew]
  · simp [Device.erase, Device.ew_enabled, hew]
  · intro e
    simp [Device.write, Device.ew_enabled, hew]

@[simp] theorem diBits_nil : diBits [] = [] := rfl

@[simp] theorem diBits_cons_cs (b : Bool) (t : List Ev) :
    diBits (Ev.cs b :: t) = diBits t := rfl

@[simp] theorem diBits_cons_sk (b : Bool) (t : List Ev) :
    diBits (Ev.sk b :: t) = diBits t := rfl

@[simp] theorem diBits_cons_usleep (n : Nat) (t : List Ev) :
    diBits (Ev.usleep n :: t) = diBits t := rfl

@[simp] theorem diBits_cons_readDo (b : Bool) (t : List Ev) :
    diBits (Ev.readDo b :: t) = diBits t := rfl

@[simp] theorem diBits_cons_di (b : Bool) (t : List Ev) :
    diBits (Ev.di b :: t) = b :: diBits t := rfl

@[simp] theorem diBits_append (xs ys : List Ev) :
    diBits (xs ++ ys) = diBits xs ++ diBits ys := by
  simp [diBits, List.filterMap_append]

/-- `send_bits value length` puts exactly bits `length-1 .. 0` of `value`
on DI, most significant first. -/
theorem diBits_send_bits (v n : Nat) :
    diBits (Device.send_bits v n) =
      (List.range n).reverse.map fun i => v.testBit i := by
  induction n with
  | zero => rfl
  | succ n ih =>
    have h6 : Device.send_bits v (n + 1) =
        [Ev.di (v.testBit n), Ev.usleep DELAY_WRITE, Ev.sk true,
          Ev.usleep DELAY_WRITE, Ev.sk false, Ev.usleep DELAY_WRITE] ++
          Device.send_bits v n := rfl
    rw [h6, diBits_append, ih, List.range_succ]
    simp

/-- Number of occurrences of the event `x` in a trace. -/
def countEv (x : Ev) (tr : List Ev) : Nat :=
  (tr.filter fun e => decide (e = x)).length

theorem countEv_nil (x : Ev) : countEv x [] = 0 := rfl

theorem countEv_cons (x e : Ev) (t : List Ev) :
    countEv x (e :: t) = countEv x t + (if e = x then 1 else 0) := by
  by_cases h : e = x <;> simp [countEv, List.filter_cons, h]

theorem countEv_append (x : Ev) (l₁ l₂ : List Ev) :
    countEv x (l₁ ++ l₂) = countEv x l₁ + countEv x l₂ := by
  simp [countEv, List.filter_append]

/-- `send_bits` never touches the CS line. -/
theorem countEv_cs_send_bits (b : Bool) (v n : Nat) :
    countEv (Ev.cs b) (Device.send_bits v n) = 0 := by
  induction n with
  | zero => rfl
  | succ n ih =>
    simp [Device.send_bits, countEv_cons, ih]

/-- Shape of a terminating ready-poll: it is a run of low DO samples and
waits, ending with the single high DO sample; it contains no DI event and
never touches CS. -/
theorem poll_loop_spec (dos : Nat → Bool) :
    ∀ fuel k p, Device.poll_loop dos fuel k = some p →
      ∃ q, p = q ++ [Ev.readDo true] ∧ diBits q = [] ∧
        countEv (Ev.cs false) q = 0 ∧ countEv (Ev.cs true) q = 0 := by
  intro fuel
  induction fuel with
  | zero =>
    intro k p h
    simp [Device.poll_loop] at h
  | succ n ih =>
    intro k p h
    by_cases hd : dos k
    · simp [Device.poll_loop, hd] at h
      exact ⟨[], by simp [h.symm], rfl, rfl, rfl⟩
    · simp [Device.poll_loop, hd, Option.map_eq_some'] at h
      obtain ⟨p', hp', rfl⟩ := h
      obtain ⟨q, rfl, hdq, hq0, hq1⟩ := ih (k + 1) p' hp'
      refine ⟨Ev.readDo false :: Ev.usleep DELAY_WAIT :: q, by simp, by simp [hdq],
        ?_, ?_⟩
      · simp [countEv_cons, hq0]
      · simp [countEv_cons, hq1]

/-- All of the low eight bits of the two payload masks are set. -/
theorem mask_bits_low8 :
    (∀ j, j < 8 → (0xFFFF : Nat).testBit j = true) ∧
      ∀ j, j < 8 → (0xFF : Nat).testBit j = true := by
  exact ⟨by decide, by decide⟩

/-- Claim C7: on an 8-bit-organization device with the latch enabled, the
DI bit sequence of every successful `write` (and of `write_all`) is a
value-independent frame followed by exactly the 8 bits of
`value & 0xFF`, most significant first — independent of the address
width, with bits of `value` above bit 7 never reaching the wire (the
source's `0xFFFF` mask at line 230 notwithstanding, since only 8 bits are
shifted). -/
theorem C7_write_payload_8bit (d : Dev) (dos : Nat → Bool) (fuel : Nat)
    (a : Int) (h8 : d.org = EEPROM_MODE_8BIT) (hew : d.ew = true) :
    ∃ fw fa : List Bool,
      (∀ v tr, Device.write d dos fuel a v = some (Except.ok tr) →
        diBits tr =
          fw ++ (List.range 8).reverse.map fun i => (v &&& 0xFF).testBit i) ∧
      (∀ v tr, Device.write_all d dos fuel v = some tr →
        diBits tr =
          fa ++ (List.range 8).reverse.map fun i => (v &&& 0xFF).testBit i) := by
  have horg16 : ¬d.org = EEPROM_MODE_16BIT := by
    rw [h8]
    decide
  refine ⟨diBits (Device.send_bits 1 1 ++
      Device.send_bits (OP.WRITE <<< d.addr ||| pyAnd a d.mask) (d.addr + 2)),
    diBits (Device.send_bits 1 1 ++
      Device.send_bits (OP.CONTROL <<< d.addr ||| CC.WRITE_ALL <<< (d.addr - 2))
        (d.addr + 2)), ?_, ?_⟩
  · intro v tr h
    cases hva : Device.validate_addr d a with
    | error e =>
      simp [Device.write, Device.ew_enabled, hew, hva] at h
    | ok u =>
      simp [Device.write, Device.ew_enabled, hew, hva, horg16, h8,
        Device.wait_ready, Option.map_eq_some'] at h
      obtain ⟨p, hp, rfl⟩ := h
      obtain ⟨q, rfl, hdq, _, _⟩ := poll_loop_spec dos fuel 0 p hp
      simp [diBits_send_bits, hdq, EEPROM_MODE_8BIT, EEPROM_MODE_16BIT]
      intro i hi
      simp [mask_bits_low8.1 i hi, mask_bits_low8.2 i hi]
  · intro v tr h
    simp [Device.write_all, Device.ew_enabled, hew, horg16, h8,
      Device.wait_ready, Option.map_eq_some'] at h
    obtain ⟨p, hp, rfl⟩ := h
    obtain ⟨q, rfl, hdq, _, _⟩ := poll_loop_spec dos fuel 0 p hp
    simp [diBits_send_bits, hdq, EEPROM_MODE_8BIT, EEPROM_MODE_16BIT]
    intro i hi
    simp [mask_bits_low8.2 i hi]

/-- Claim C7 witness: the model-46 / 8-bit device with the latch
enabled, address 0, ready on the first poll. -/
theorem C7_write_payload_8bit_witness :
    (mkDev 46 EEPROM_MODE_8BIT true).org = EEPROM_MODE_8BIT ∧
    (mkDev 46 EEPROM_MODE_8BIT true).ew = true ∧
    (∃ fw fa : List Bool,
      (∀ v tr,
        Device.write (mkDev 46 EEPROM_MODE_8BIT true) (fun _ => true) 1 0 v =
          some (Except.ok tr) →
        diBits tr =
          fw ++ (List.range 8).reverse.map fun i => (v &&& 0xFF).testBit i) ∧
      (∀ v tr,
        Device.write_all (mkDev 46 EEPROM_MODE_8BIT true) (fun _ => true) 1
            v = some tr →
        diBits tr =
          fa ++ (List.range 8).reverse.map fun i => (v &&& 0xFF).testBit i)) :=
  ⟨rfl, rfl,
    C7_write_payload_8bit (mkDev 46 EEPROM_MODE_8BIT true) (fun _ => true) 1 0
      rfl rfl⟩

/-- Claim C8 counterexample: on the model-46 / 16-bit device with the
latch enabled and DO immediately high, the successful `erase(0)` trace
deasserts CS twice, not exactly once as the claim states (the source
deasserts CS after the frame, and `wait_ready` re-asserts and deasserts
it again). -/
theorem C8_cs_deasserted_twice :
    countEv (Ev.cs false)
      ((Device.erase (mkDev 46 EEPROM_MODE_16BIT true) (fun _ => true) 1
          0).getD []) = 2 ∧
    (Device.erase (mkDev 46 EEPROM_MODE_16BIT true) (fun _ => true) 1
        0).isSome = true := by
  decide

/-- The CS envelope every successful write/erase-family operation turns
out to have: CS deasserted exactly twice, asserted exactly twice, and the
final two events are the DO sample reading high followed by the last CS
deassert. -/
def csEnvelope (tr : List Ev) : Prop :=
  countEv (Ev.cs false) tr = 2 ∧ countEv (Ev.cs true) tr = 2 ∧
    ∃ t, tr = t ++ [Ev.readDo true, Ev.cs false]

/-- Claim C8 (amended): in every successful `erase`, `write`, `erase_all`
and `write_all` (latch enabled), CS is asserted twice and deasserted
twice — once right after the frame/payload is shifted, once at the end of
the ready-wait — and the final two events are the DO sample reading high
followed by the last CS deassert. -/
theorem C8_amended_cs_envelope (d : Dev) (dos : Nat → Bool) (fuel : Nat)
    (a : Int) (v : Nat) (hew : d.ew = true) :
    (∀ tr, Device.erase d dos fuel a = some tr → csEnvelope tr) ∧
    (∀ tr, Device.write d dos fuel a v = some (Except.ok tr) →
      csEnvelope tr) ∧
    (∀ tr, Device.erase_all d dos fuel = some tr → csEnvelope tr) ∧
    (∀ tr, Device.write_all d dos fuel v = some tr → csEnvelope tr) := by
  have hpay : ∀ (b : Bool) (x y : Nat),
      countEv (Ev.cs b)
        (if d.org = EEPROM_MODE_16BIT then Device.send_bits x 16
         else if d.org = EEPROM_MODE_8BIT then Device.send_bits y 8
         else []) = 0 := by
    intro b x y
    split_ifs <;> simp [countEv_cs_send_bits, countEv_nil]
  refine ⟨?_, ?_, ?_, ?_⟩
  · intro tr h
    simp [Device.erase, Device.ew_enabled, hew, Device.wait_ready,
      Option.map_eq_some'] at h
    obtain ⟨p, hp, rfl⟩ := h
    obtain ⟨q, rfl, hdq, hq0, hq1⟩ := poll_loop_spec dos fuel 0 p hp
    refine ⟨?_, ?_, ?_⟩
    · simp [countEv_cons, countEv_append, countEv_nil, countEv_cs_send_bits,
        hq0]
    · simp [countEv_cons, countEv_append, countEv_nil, countEv_cs_send_bits,
        hq1]
    · exact ⟨Ev.cs true :: Ev.usleep DELAY_CS ::
        (Device.send_bits 1 1 ++
          Device.send_bits (OP.ERASE <<< d.addr ||| pyAnd a d.mask)
            (d.addr + 2) ++
          [Ev.cs false] ++ (Ev.cs true :: q)), by simp⟩
  · intro tr h
    cases hva : Device.validate_addr d a with
    | error e =>
      simp [Device.write, Device.ew_enabled, hew, hva] at h
    | ok u =>
      simp [Device.write, Device.ew_enabled, hew, hva, Device.wait_ready,
        Option.map_eq_some'] at h
      obtain ⟨p, hp, rfl⟩ := h
      obtain ⟨q, rfl, hdq, hq0, hq1⟩ := poll_loop_spec dos fuel 0 p hp
      refine ⟨?_, ?_, ?_⟩
      · simp [countEv_cons, countEv_append, countEv_nil,
          countEv_cs_send_bits, hpay, hq0]
      · simp [countEv_cons, countEv_append, countEv_nil,
          countEv_cs_send_bits, hpay, hq1]
      · exact ⟨Ev.cs true :: Ev.usleep DELAY_CS ::
          (Device.send_bits 1 1 ++
            Device.send_bits (OP.WRITE <<< d.addr ||| pyAnd a d.mask)
              (d.addr + 2) ++
            (if d.org = EEPROM_MODE_16BIT then
              Device.send_bits (0xFFFF &&& v) 16
             else if d.org = EEPROM_MODE_8BIT then
              Device.send_bits (0xFFFF &&& v) 8
             else []) ++
            [Ev.cs false] ++ (Ev.cs true :: q)), by simp⟩
  · intro tr h
    simp [Device.erase_all, Device.ew_enabled, hew, Device.wait_ready,
      Option.map_eq_some'] at h
    obtain ⟨p, hp, rfl⟩ := h
    obtain ⟨q, rfl, hdq, hq0, hq1⟩ := poll_loop_spec dos fuel 0 p hp
    refine ⟨?_, ?_, ?_⟩
    · simp [countEv_cons, countEv_append, countEv_nil, countEv_cs_send_bits,
        hq0]
    · simp [countEv_cons, countEv_append, countEv_nil, countEv_cs_send_bits,
        hq1]
    · exact ⟨Ev.cs true :: Ev.usleep DELAY_CS ::
        (Device.send_bits 1 1 ++
          Device.send_bits
            (OP.CONTROL <<< d.addr ||| CC.ERASE_ALL <<< (d.addr - 2))
            (d.addr + 2) ++
          [Ev.cs false] ++ (Ev.cs true :: q)), by simp⟩
  · intro tr h
    simp [Device.write_all, Device.ew_enabled, hew, Device.wait_ready,
      Option.map_eq_some'] at h
    obtain ⟨p, hp, rfl⟩ := h
    obtain ⟨q, rfl, hdq, hq0, hq1⟩ := poll_loop_spec dos fuel 0 p hp
    refine ⟨?_, ?_, ?_⟩
    · simp [countEv_cons, countEv_append, countEv_nil, countEv_cs_send_bits,
        hpay, hq0]
    · simp [countEv_cons, countEv_append, countEv_nil, countEv_cs_send_bits,
        hpay, hq1]
    · exact ⟨Ev.cs true :: Ev.usleep DELAY_CS ::
        (Device.send_bits 1 1 ++
          Device.send_bits
            (OP.CONTROL <<< d.addr ||| CC.WRITE_ALL <<< (d.addr - 2))
            (d.addr + 2) ++
          (if d.org = EEPROM_MODE_16BIT then
            Device.send_bits (0xFFFF &&& v) 16
           else if d.org = EEPROM_MODE_8BIT then
            Device.send_bits (0xFF &&& v) 8
           else []) ++
          [Ev.cs false] ++ (Ev.cs true :: q)), by simp⟩

/-- Claim C8 witness for the amended theorem: the model-46 / 16-bit
device with the latch enabled, address 0, value 5, DO high at the first
poll — parameters at which all four operations succeed. -/
theorem C8_amended_cs_envelope_witness :
    (mkDev 46 EEPROM_MODE_16BIT true).ew = true ∧
    ((∀ tr,
        Device.erase (mkDev 46 EEPROM_MODE_16BIT true) (fun _ => true) 1 0 =
          some tr → csEnvelope tr) ∧
      (∀ tr,
        Device.write (mkDev 46 EEPROM_MODE_16BIT true) (fun _ => true) 1 0
            5 = some (Except.ok tr) → csEnvelope tr) ∧
      (∀ tr,
        Device.erase_all (mkDev 46 EEPROM_MODE_16BIT true) (fun _ => true)
            1 = some tr → csEnvelope tr) ∧
      (∀ tr,
        Device.write_all (mkDev 46 EEPROM_MODE_16BIT true) (fun _ => true) 1
            5 = some tr → csEnvelope tr)) :=
  ⟨rfl,
    C8_amended_cs_envelope (mkDev 46 EEPROM_MODE_16BIT true) (fun _ => true)
      1 0 5 rfl⟩

/-- A poll that sees DO high within its fuel terminates. -/
theorem poll_loop_isSome_of_high (dos : Nat → Bool) :
    ∀ n start, dos (start + n) = true →
      (Device.poll_loop dos (n + 1) start).isSome = true := by
  intro n
  induction n with
  | zero =>
    intro start h
    simp only [Nat.add_zero] at h
    simp [Device.poll_loop, h]
  | succ n ih =>
    intro start h
    by_cases hd : dos start
    · simp [Device.poll_loop, hd]
    · have h' : dos (start + 1 + n) = true := by
        rw [show start + 1 + n = start + (n + 1) from by omega]
        exact h
      have hstep : Device.poll_loop dos (n + 1 + 1) start =
          (Device.poll_loop dos (n + 1) (start + 1)).map
            fun evs => Ev.readDo false :: Ev.usleep DELAY_WAIT :: evs := by
        simp [Device.poll_loop, hd]
      rw [hstep, Option.isSome_map']
      exact ih (start + 1) h'

/-- A terminating poll saw DO high at some sample. -/
theorem poll_loop_some_high (dos : Nat → Bool) :
    ∀ fuel start, (Device.poll_loop dos fuel start).isSome = true →
      ∃ n, dos n = true := by
  intro fuel
  induction fuel with
  | zero =>
    intro start h
    simp [Device.poll_loop] at h
  | succ m ih =>
    intro start h
    by_cases hd : dos start
    · exact ⟨start, hd⟩
    · simp [Device.poll_loop, hd] at h
      exact ih (start + 1) h

/-- Claim C9: the ready-wait poll terminates exactly when the DO stream
eventually reads high: some finite fuel suffices if and only if DO is
high at some poll sample; with DO never high, no amount of fuel
terminates it — the Python loop, which has no timeout or retry bound,
blocks forever. -/
theorem C9_wait_ready_terminates_iff (dos : Nat → Bool) :
    (∃ n, dos n = true) ↔
      ∃ fuel, (Device.wait_ready dos fuel 0).isSome = true := by
  constructor
  · rintro ⟨n, hn⟩
    refine ⟨n + 1, ?_⟩
    have h0 : dos (0 + n) = true := by
      simpa using hn
    have := poll_loop_isSome_of_high dos n 0 h0
    simpa [Device.wait_ready] using this
  · rintro ⟨fuel, h⟩
    apply poll_loop_some_high dos fuel 0
    simpa [Device.wait_ready] using h

/-- Claim C10 witness: disabled device, out-of-range address -7. -/
theorem C10_latch_guard_precedes_validation_witness :
    (mkDev 46 EEPROM_MODE_16BIT false).ew = false ∧
    (Device.write (mkDev 46 EEPROM_MODE_16BIT false) (fun _ => true) 0 (-7)
        9 = some (Except.ok []) ∧
      Device.erase (mkDev 46 EEPROM_MODE_16BIT false) (fun _ => true) 0
          (-7) = some [] ∧
      ∀ e : Err,
        Device.write (mkDev 46 EEPROM_MODE_16BIT false) (fun _ => true) 0
            (-7) 9 ≠ some (Except.error e)) :=
  ⟨rfl,
    C10_latch_guard_precedes_validation (mkDev 46 EEPROM_MODE_16BIT false)
      (fun _ => true) 0 (-7) 9 rfl⟩

end EEPROM93
